import Mathlib

/-!
Shallow embedding of the joinedtogether game core (src/main.rs, src/sfx.rs).

The game runs on a 32-bit handheld console and does all motion arithmetic in
signed fixed-point numbers with 10 fractional bits (the `FixedNum<10>` type of
the external platform library).  We model a fixed-point number by its raw
integer value (the real value scaled by 1024), as unbounded `Int`: all values
produced by the game stay many orders of magnitude below the `i32` bounds, so
wrap-around never occurs and is not modelled.  Rust semantics are kept exactly:
`/` and `%` on integers truncate toward zero (`Int.tdiv` / `Int.tmod`), the
arithmetic right shift used by `floor` rounds toward negative infinity
(`Int.fdiv`), and fixed-point multiply/divide follow the platform library
(shift-based multiply, truncating divide, integer square root for magnitudes).

Hardware side effects (sprite attribute writes, the audio mixer, the video
registers) are external collaborators and are omitted; every field of the game
state that feeds back into the simulation (positions, velocities, the hat state
machine, the animation frame index that selects the hat resting offset, the
facing flag) is retained.
-/

namespace JoinedTogether

/-- Raw value of a `FixedNum<10>` fixed-point number: the real value times 1024. -/
abbrev Fixed := Int

/-- Conversion of an integer into fixed point (`FixedNumberType::new`). -/
def Fixed.ofInt (n : Int) : Fixed := n * 1024

/-- `FixedNum::floor`: arithmetic right shift by 10, rounding toward negative infinity. -/
def Fixed.floor (a : Fixed) : Int := Int.fdiv a 1024

/-- Fixed-point by fixed-point multiply: widen, multiply, arithmetic shift right by 10. -/
def Fixed.mul (a b : Fixed) : Fixed := Int.fdiv (a * b) 1024

/-- Fixed-point by fixed-point divide: widen, shift left by 10, truncating divide. -/
def Fixed.divNum (a b : Fixed) : Fixed := Int.tdiv (a * 1024) b

/-- Fixed-point divided by a plain integer (Rust truncating `/` on the raw value). -/
def Fixed.divInt (a : Fixed) (k : Int) : Fixed := Int.tdiv a k

/-- Fuel-bounded Newton iteration for the integer square root, mirroring the standard
`Nat.sqrt` iteration but kernel-computable (structural recursion on the fuel). -/
def isqrtGo (n : Nat) : Nat → Nat → Nat
  | 0, x => x
  | fuel + 1, x =>
    let next := (x + n / x) / 2
    if next < x then isqrtGo n fuel next else x

/-- Kernel-computable floor integer square root. -/
def isqrt (n : Nat) : Nat := if n ≤ 1 then n else isqrtGo n (n / 2) (n / 2)

/-- Fixed-point square root: integer square root of the raw value, shifted left by 5
(valid for the even fraction size 10; the library asserts nonnegativity). -/
def Fixed.sqrt (a : Fixed) : Fixed := (isqrt a.toNat : Int) * 32

/-- Two-component vector of fixed-point numbers (`Vector2D<FixedNumberType>`). -/
structure Vec2 where
  x : Fixed
  y : Fixed
  deriving DecidableEq, Repr

def Vec2.add (a b : Vec2) : Vec2 := ⟨a.x + b.x, a.y + b.y⟩

def Vec2.sub (a b : Vec2) : Vec2 := ⟨a.x - b.x, a.y - b.y⟩

/-- Vector times a plain integer scalar. -/
def Vec2.mulInt (a : Vec2) (k : Int) : Vec2 := ⟨a.x * k, a.y * k⟩

/-- Vector divided by a plain integer scalar (componentwise truncating divide). -/
def Vec2.divInt (a : Vec2) (k : Int) : Vec2 := ⟨Fixed.divInt a.x k, Fixed.divInt a.y k⟩

/-- Vector divided by a fixed-point scalar. -/
def Vec2.divNum (a : Vec2) (d : Fixed) : Vec2 := ⟨Fixed.divNum a.x d, Fixed.divNum a.y d⟩

/-- Vector times a fixed-point scalar. -/
def Vec2.mulNum (a : Vec2) (k : Fixed) : Vec2 := ⟨Fixed.mul a.x k, Fixed.mul a.y k⟩

/-- `Vector2D::magnitude`: square root of the fixed-point dot product with itself. -/
def Vec2.magnitude (a : Vec2) : Fixed := Fixed.sqrt (Fixed.mul a.x a.x + Fixed.mul a.y a.y)

/-- `Vector2D::normalise`: divide by the own magnitude (callers guard the zero vector). -/
def Vec2.normalise (a : Vec2) : Vec2 := Vec2.divNum a (Vec2.magnitude a)

/-- The `Level` structure of main.rs: two tile-id layers, dimensions in tiles, and the
collision-property table indexed by tile id.  `collisionTile` stands for the
build-generated sentinel constant `map_tiles::tilemap::COLLISION_TILE`. -/
structure Level where
  background : List Nat
  foreground : List Nat
  width : Nat
  height : Nat
  collision : List Nat
  collisionTile : Nat
  deriving DecidableEq, Repr

/-- `Level::collides` (main.rs lines 114-123): out of bounds is always solid; in bounds,
look the foreground tile id up in the collision table and compare with the sentinel.
The original also reads the background layer entry into a dead local, which we keep. -/
def Level.collides (l : Level) (x y : Int) : Bool :=
  if x < 0 ∨ (l.width : Int) ≤ x ∨ y < 0 ∨ (l.height : Int) ≤ y then
    true
  else
    let pos := ((l.width : Int) * y + x).toNat
    let tile_foreground := l.foreground.getD pos 0
    let tile_background := l.background.getD pos 0
    decide (l.collision.getD tile_foreground 0 = l.collisionTile)

/-- The half-open integer interval [a, b) as a list, the iteration space of the Rust
range loop `for x in a..b`. -/
def intRange (a b : Int) : List Int :=
  (List.range (b - a).toNat).map fun (k : Nat) => a + (k : Int)

/-- The movable-sprite state of `Entity`: position, velocity, and the pixel size of the
collision box (a `Vector2D<u16>`, kept as a pair of plain integers).  The sprite
handle is a display-hardware side effect and is not part of the simulation state. -/
structure Entity where
  position : Vec2
  velocity : Vec2
  collision_mask : Int × Int
  deriving DecidableEq, Repr

/-- The body of `Entity::collision_at_point`, parameterised by the only entity field
it reads, the collision mask: box edges from the floored position plus/minus
half the mask, converted to tile coordinates with Rust truncating division by 8,
then a search for any solid tile in the half-open rectangle
[left, right) x [top, bottom). -/
def collision_at_mask (mask : Int × Int) (l : Level) (position : Vec2) : Bool :=
  let left := Int.tdiv (Fixed.floor position.x - Int.tdiv mask.1 2) 8
  let right := Int.tdiv (Fixed.floor position.x + Int.tdiv mask.1 2) 8
  let top := Int.tdiv (Fixed.floor position.y - Int.tdiv mask.2 2) 8
  let bottom := Int.tdiv (Fixed.floor position.y + Int.tdiv mask.2 2) 8
  (intRange left right).any fun x => (intRange top bottom).any fun y => l.collides x y

/-- `Entity::collision_at_point` (main.rs lines 64-78). -/
def Entity.collision_at_point (e : Entity) (l : Level) (position : Vec2) : Bool :=
  collision_at_mask e.collision_mask l position

/-- `Entity::update_position` (main.rs lines 81-93): axis-separated integration.  Apply
the X component of the velocity alone and keep it unless the candidate collides,
then the Y component alone likewise; return the updated entity together with the
net displacement actually applied. -/
def Entity.update_position (e : Entity) (l : Level) : Entity × Vec2 :=
  let old_position := e.position
  let x_velocity : Vec2 := ⟨e.velocity.x, 0⟩
  let e1 :=
    if e.collision_at_point l (e.position.add x_velocity) then e
    else { e with position := e.position.add x_velocity }
  let y_velocity : Vec2 := ⟨0, e.velocity.y⟩
  let e2 :=
    if e1.collision_at_point l (e1.position.add y_velocity) then e1
    else { e1 with position := e1.position.add y_velocity }
  (e2, e2.position.sub old_position)

/-- The hat interaction mode (main.rs lines 126-131). -/
inductive HatState where
  | OnHead
  | Thrown
  | WizardTowards
  deriving DecidableEq, Repr

/-- The tri-state of one directional input axis (the `Tri` type of the input surface,
with integer values -1, 0, 1). -/
inductive Tri where
  | Negative
  | Zero
  | Positive
  deriving DecidableEq, Repr

def Tri.toInt : Tri → Int
  | .Negative => -1
  | .Zero => 0
  | .Positive => 1

/-- The per-frame input snapshot consumed by `Player::update_frame`: the press edge of
the action button and the two directional tri-states. -/
structure Input where
  a_just_pressed : Bool
  x_tri : Tri
  y_tri : Tri
  deriving DecidableEq, Repr

/-- The `Player` structure of main.rs (lines 133-141), minus sprite handles. -/
structure Player where
  wizard : Entity
  hat : Entity
  hat_state : HatState
  hat_left_range : Bool
  hat_slow_counter : Int
  wizard_frame : Int
  facing : Tri
  deriving DecidableEq, Repr

/-- `ping_pong` (main.rs lines 143-151), with Rust truncating `%`. -/
def ping_pong (i n : Int) : Int :=
  let cycle := 2 * (n - 1)
  let i := Int.tmod i cycle
  if i ≥ n then cycle - i else i

/-- Screen width in pixels (the WIDTH constant of the display surface). -/
def screenWidth : Int := 240

/-- Screen height in pixels (the HEIGHT constant of the display surface). -/
def screenHeight : Int := 160

/-- `Player::new` (main.rs lines 154-179): both entities carry a 16 by 16 collision
mask, the wizard starts at the screen centre, all counters and flags cleared. -/
def Player.new : Player :=
  { wizard :=
      { position := ⟨Fixed.ofInt (Int.tdiv screenWidth 2), Fixed.ofInt (Int.tdiv screenHeight 2)⟩
        velocity := ⟨0, 0⟩
        collision_mask := (16, 16) }
    hat :=
      { position := ⟨0, 0⟩
        velocity := ⟨0, 0⟩
        collision_mask := (16, 16) }
    hat_slow_counter := 0
    hat_state := .OnHead
    hat_left_range := false
    wizard_frame := 0
    facing := .Zero }

/-- The directional input as a fixed-point vector (main.rs lines 185-186). -/
def direction_input (input : Input) : Vec2 :=
  ⟨Fixed.ofInt input.x_tri.toInt, Fixed.ofInt input.y_tri.toInt⟩

/-- The throw velocity computed on a throw edge (main.rs lines 188-191): normalised
direction times 5, with the Y component further multiplied by the fixed-point
constant `FixedNumberType::new(4) / 3` when it is positive. -/
def throw_velocity (direction : Vec2) : Vec2 :=
  let velocity := (Vec2.normalise direction).mulInt 5
  if velocity.y > 0 then
    ⟨velocity.x, Fixed.mul velocity.y (Fixed.divInt (Fixed.ofInt 4) 3)⟩
  else
    velocity

/-- The throw-or-recall input handling of `Player::update_frame` (main.rs lines
182-200): on the press edge of the action button, OnHead with a nonzero direction
throws the hat, Thrown recalls the wizard toward the hat. -/
def input_step (p : Player) (input : Input) : Player :=
  if input.a_just_pressed then
    if p.hat_state = .OnHead then
      let direction := direction_input input
      if direction ≠ (⟨0, 0⟩ : Vec2) then
        { p with
          hat := { p.hat with velocity := throw_velocity direction }
          hat_state := .Thrown }
      else p
    else if p.hat_state = .Thrown then
      { p with
        hat := { p.hat with velocity := ⟨0, 0⟩ }
        wizard := { p.wizard with velocity := ⟨0, 0⟩ }
        hat_state := .WizardTowards }
    else p
  else p

/-- The wizard physics and animation block of `Player::update_frame` (main.rs lines
202-240), run only while the hat state is not WizardTowards: gravity, horizontal
input acceleration, 62/64 damping, the collision-resolving move whose achieved
displacement overwrites the velocity, then the walk/fall animation frame and the
facing update.  Sprite tile writes are display side effects and are dropped. -/
def physics_step (p : Player) (input : Input) (timer : Int) (l : Level) : Player :=
  if p.hat_state ≠ .WizardTowards then
    let gravity := Vec2.divInt ⟨Fixed.ofInt 0, Fixed.ofInt 1⟩ 16
    let v1 := p.wizard.velocity.add gravity
    let v2 : Vec2 := ⟨v1.x + Fixed.divInt (Fixed.ofInt input.x_tri.toInt) 64, v1.y⟩
    let v3 := (v2.mulInt 62).divInt 64
    let moved := Entity.update_position { p.wizard with velocity := v3 } l
    let wizard := { moved.1 with velocity := moved.2 }
    let frame1 :=
      if |wizard.velocity.x| > Fixed.divInt (Fixed.ofInt 1) 16 then
        ping_pong (Int.tdiv timer 16) 4
      else p.wizard_frame
    let frame2 := if wizard.velocity.y < Fixed.divInt (Fixed.ofInt 1) 16 then 0 else frame1
    let facing := if input.x_tri ≠ Tri.Zero then input.x_tri else p.facing
    { p with wizard := wizard, wizard_frame := frame2, facing := facing }
  else p

/-- The hat resting offset (main.rs lines 256-259): (0, 9) during walk frames 1 and 2,
(0, 8) otherwise. -/
def hat_resting_position (p : Player) : Vec2 :=
  if p.wizard_frame = 1 ∨ p.wizard_frame = 2 then ⟨Fixed.ofInt 0, Fixed.ofInt 9⟩
  else ⟨Fixed.ofInt 0, Fixed.ofInt 8⟩

/-- Distance from the hat to the wizard head position, as measured at the top of the
Thrown branch (main.rs lines 264-266). -/
def thrown_distance (p : Player) : Fixed :=
  ((p.wizard.position.sub p.hat.position).sub (hat_resting_position p)).magnitude

/-- Distance from the wizard to the hat, as measured in the WizardTowards branch
(main.rs lines 301-303). -/
def towards_distance (p : Player) : Fixed :=
  ((p.hat.position.sub p.wizard.position).add (hat_resting_position p)).magnitude

/-- The hat state dispatch of `Player::update_frame` (main.rs lines 261-314).  The
timer only selects sprite animation tiles there, which are display side effects,
so it is not a parameter.  Thrown: hover-then-home toward the wizard, move with
collision, track leaving the 16-unit range and catch when back inside it.
OnHead: clear the counters and pin the hat.  WizardTowards: redirect the wizard
toward the hat at growing speed, move, and catch inside the 16-unit range with
the velocity divided by 8. -/
def hat_step (p : Player) (l : Level) : Player :=
  match p.hat_state with
  | .Thrown =>
    let distance_vector := (p.wizard.position.sub p.hat.position).sub (hat_resting_position p)
    let distance := thrown_distance p
    let direction :=
      if distance = 0 then (⟨0, 0⟩ : Vec2) else distance_vector.divNum distance
    let slowAndVel :=
      if p.hat_slow_counter < 10 ∧ p.hat.velocity.magnitude < Fixed.ofInt 2 then
        (p.hat_slow_counter + 1, (⟨0, 0⟩ : Vec2))
      else
        (p.hat_slow_counter, p.hat.velocity.add (direction.divInt 4))
    let moved := Entity.update_position { p.hat with velocity := slowAndVel.2 } l
    let hat := { moved.1 with velocity := moved.2 }
    let left := if distance > Fixed.ofInt 16 then true else p.hat_left_range
    let st := if left = true ∧ distance < Fixed.ofInt 16 then HatState.OnHead else HatState.Thrown
    { p with hat := hat, hat_slow_counter := slowAndVel.1, hat_left_range := left, hat_state := st }
  | .OnHead =>
    { p with
      hat_slow_counter := 0
      hat_left_range := false
      hat := { p.hat with position := p.wizard.position.sub (hat_resting_position p) } }
  | .WizardTowards =>
    let distance_vector := (p.hat.position.sub p.wizard.position).add (hat_resting_position p)
    let distance := towards_distance p
    let wv :=
      if distance ≠ 0 then
        (distance_vector.divNum distance).mulNum (p.wizard.velocity.magnitude + Fixed.ofInt 1)
      else p.wizard.velocity
    let moved := Entity.update_position { p.wizard with velocity := wv } l
    let wizard1 := { moved.1 with velocity := moved.2 }
    if distance < Fixed.ofInt 16 then
      { p with
        wizard := { wizard1 with velocity := wizard1.velocity.divInt 8 }
        hat_state := .OnHead }
    else
      { p with wizard := wizard1 }

/-- `Player::update_frame` (main.rs lines 181-315) as the composition of its three
state-relevant blocks, in source order. -/
def Player.update_frame (p : Player) (input : Input) (timer : Int) (l : Level) : Player :=
  hat_step (physics_step (input_step p input) input timer l) l

/-- The player state after the input handling and the wizard physics block, at the
point where the hat state dispatch begins. -/
def mid_state (p : Player) (input : Input) (timer : Int) (l : Level) : Player :=
  physics_step (input_step p input) input timer l

/-- One of the six pre-rendered one-shot sound effect clips of sfx.rs.  The raw sample
buffers are opaque build-time assets; only their identity matters here. -/
inductive Clip where
  | woosh1
  | woosh2
  | woosh3
  | catch1
  | catch2
  | catch3
  deriving DecidableEq, Repr

/-- `effects::WHOOSHES` (sfx.rs line 24). -/
def WHOOSHES : List Clip := [.woosh1, .woosh2, .woosh3]

/-- `effects::CATCHES` (sfx.rs line 30). -/
def CATCHES : List Clip := [.catch1, .catch2, .catch3]

/-- The `MusicBox` state (sfx.rs lines 33-35): only the frame counter. -/
structure MusicBox where
  frame : Int
  deriving DecidableEq, Repr

/-- `MusicBox::new` (sfx.rs lines 38-40). -/
def MusicBox.new : MusicBox := ⟨0⟩

/-- `MusicBox::after_blank` (sfx.rs lines 42-53): the mixer triggers are audio side
effects; the state change is the frame increment. -/
def MusicBox.after_blank (m : MusicBox) : MusicBox := { frame := m.frame + 1 }

/-- `MusicBox::play_random` (sfx.rs lines 63-67): index the clip table by the frame
counter cast from `i32` to the 32-bit `usize` (a wrap-around reinterpretation,
modelled by the nonnegative remainder modulo 2 to the 32) reduced modulo the
table length.  The selected clip is handed to the mixer; we return it. -/
def MusicBox.play_random (m : MusicBox) (effect : List Clip) : Clip :=
  effect.getD ((Int.emod m.frame 4294967296).toNat % effect.length) Clip.woosh1

/-- `MusicBox::catch` (sfx.rs lines 55-57): the method takes a shared reference, so the
box itself is returned unchanged next to the selected clip. -/
def MusicBox.catch (m : MusicBox) : Clip × MusicBox := (m.play_random CATCHES, m)

/-- `MusicBox::throw` (sfx.rs lines 59-61): as `catch`, over the whoosh table. -/
def MusicBox.throw (m : MusicBox) : Clip × MusicBox := (m.play_random WHOOSHES, m)

/-- The box-to-tile conversion exactly as the spec words it, with the four edges
floor-divided (rounded toward negative infinity) by the tile size 8.  This is a
second definition written from the spec, to be compared with the source function
`Entity.collision_at_point`, which uses Rust truncating division. -/
def collision_at_point_spec_floor (e : Entity) (l : Level) (position : Vec2) : Bool :=
  let left := Int.fdiv (Fixed.floor position.x - Int.tdiv e.collision_mask.1 2) 8
  let right := Int.fdiv (Fixed.floor position.x + Int.tdiv e.collision_mask.1 2) 8
  let top := Int.fdiv (Fixed.floor position.y - Int.tdiv e.collision_mask.2 2) 8
  let bottom := Int.fdiv (Fixed.floor position.y + Int.tdiv e.collision_mask.2 2) 8
  (intRange left right).any fun x => (intRange top bottom).any fun y => l.collides x y

/-- A one-tile level whose single tile is not solid. -/
def boxLevel : Level :=
  { background := [0], foreground := [0], width := 1, height := 1,
    collision := [0], collisionTile := 1 }

/-- An entity resting near the top-left corner of `boxLevel`, at pixel (7, 7). -/
def boxEntity : Entity :=
  { position := ⟨7 * 1024, 7 * 1024⟩, velocity := ⟨0, 0⟩, collision_mask := (16, 16) }

/-- The tentative position after applying only the X component of the velocity. -/
def x_candidate (e : Entity) : Vec2 := e.position.add ⟨e.velocity.x, 0⟩

/-- The position after the X axis is resolved: the candidate if free, else unchanged. -/
def x_resolved (e : Entity) (l : Level) : Vec2 :=
  if e.collision_at_point l (x_candidate e) then e.position else x_candidate e

/-- The tentative position after further applying only the Y component. -/
def y_candidate (e : Entity) (l : Level) : Vec2 := (x_resolved e l).add ⟨0, e.velocity.y⟩

/-- An entity in `boxLevel` whose X and Y axis candidates both collide (both leave
the one-tile grid). -/
def blockedEntity : Entity :=
  { position := ⟨7 * 1024, 7 * 1024⟩, velocity := ⟨8 * 1024, 8 * 1024⟩,
    collision_mask := (16, 16) }

/-- The redirected wizard velocity computed in the WizardTowards branch (main.rs lines
304-307): toward the hat at the current speed plus one, or unchanged when the
distance is exactly zero. -/
def towards_redirect (p : Player) : Vec2 :=
  let distance_vector := (p.hat.position.sub p.wizard.position).add (hat_resting_position p)
  if towards_distance p ≠ 0 then
    (distance_vector.divNum (towards_distance p)).mulNum
      (p.wizard.velocity.magnitude + Fixed.ofInt 1)
  else p.wizard.velocity

/-- A player concretely in the Thrown state with the hat exactly at the head resting
position, used as the instant-recall witness. -/
def recallPlayer : Player :=
  { wizard := { position := ⟨122880, 81920⟩, velocity := ⟨0, 0⟩, collision_mask := (16, 16) }
    hat := { position := ⟨122880, 73728⟩, velocity := ⟨0, 0⟩, collision_mask := (16, 16) }
    hat_state := .Thrown
    hat_left_range := false
    hat_slow_counter := 0
    wizard_frame := 0
    facing := .Zero }

/-- The four reachable hat-state transitions of one `update_frame` call, each guarded
exactly as the source guards it.  The catch guards are evaluated on the state at
the hat dispatch, after the input and physics blocks have run. -/
inductive HatEdge (p : Player) (input : Input) (timer : Int) (l : Level) :
    HatState → HatState → Prop where
  | throw_edge : input.a_just_pressed = true → direction_input input ≠ (⟨0, 0⟩ : Vec2) →
      HatEdge p input timer l .OnHead .Thrown
  | recall_edge : input.a_just_pressed = true → HatEdge p input timer l .Thrown .WizardTowards
  | catch_from_thrown : (mid_state p input timer l).hat_left_range = true →
      thrown_distance (mid_state p input timer l) < Fixed.ofInt 16 →
      HatEdge p input timer l .Thrown .OnHead
  | catch_from_towards : towards_distance (mid_state p input timer l) < Fixed.ofInt 16 →
      HatEdge p input timer l .WizardTowards .OnHead

/-! Theorems. -/

/-- The fuel-bounded iteration agrees with the square-root iteration of the standard
library whenever the fuel covers the guess (the guess strictly decreases). -/
theorem isqrtGo_eq_iter (n : Nat) (fuel guess : Nat) (h : guess ≤ fuel) :
    isqrtGo n fuel guess = Nat.sqrt.iter n guess := by
  induction fuel generalizing guess with
  | zero =>
    rw [Nat.sqrt.iter]
    simp only [isqrtGo]
    have hg : guess = 0 := by omega
    subst hg
    simp
  | succ f ih =>
    rw [Nat.sqrt.iter]
    simp only [isqrtGo]
    by_cases hlt : (guess + n / guess) / 2 < guess
    · rw [if_pos hlt, dif_pos hlt, ih _ (by omega)]
    · rw [if_neg hlt, dif_neg hlt]

/-- `isqrt` is the floor integer square root of the standard library. -/
theorem isqrt_eq_sqrt (n : Nat) : isqrt n = Nat.sqrt n := by
  rw [isqrt, Nat.sqrt]
  by_cases h : n ≤ 1
  · simp [h]
  · rw [if_neg h, if_neg h, isqrtGo_eq_iter n (n / 2) (n / 2) (Nat.le_refl _)]

/-- C6 counterexample: at the explicit input i = -1, n = 4 the function returns -1,
which is not in the claimed output range [0, 4).  Rust `%` keeps the sign of the
dividend, so negative inputs fall straight through the final branch. -/
theorem ping_pong_negative_counterexample :
    ping_pong (-1) 4 = -1 ∧ ¬ (0 ≤ ping_pong (-1) 4 ∧ ping_pong (-1) 4 < 4) := by
  constructor
  · decide
  · decide

/-- Rewriting of `ping_pong` through the euclidean remainder on nonnegative inputs. -/
theorem ping_pong_eq_emod (j n : Int) (hj : 0 ≤ j) (hn : 2 ≤ n) :
    ping_pong j n =
      if j % (2 * (n - 1)) ≥ n then 2 * (n - 1) - j % (2 * (n - 1))
      else j % (2 * (n - 1)) := by
  simp only [ping_pong]
  rw [Int.tmod_eq_emod hj (by omega)]

/-- C6, amended to nonnegative indices: for every i ≥ 0 and n ≥ 2, `ping_pong i n`
lies in [0, n), is periodic with period 2*(n-1), is symmetric around the period
(a triangle wave), and takes the claimed concrete values at n = 4. -/
theorem ping_pong_triangle_wave (i n : Int) (hi : 0 ≤ i) (hn : 2 ≤ n) :
    (0 ≤ ping_pong i n ∧ ping_pong i n < n) ∧
    ping_pong (i + 2 * (n - 1)) n = ping_pong i n ∧
    (i ≤ 2 * (n - 1) → ping_pong (2 * (n - 1) - i) n = ping_pong i n) ∧
    ping_pong 0 4 = 0 ∧ ping_pong 3 4 = 3 ∧ ping_pong 4 4 = 2 ∧ ping_pong 6 4 = 0 := by
  have hc : (0 : Int) < 2 * (n - 1) := by omega
  refine ⟨?_, ?_, ?_, by decide, by decide, by decide, by decide⟩
  · rw [ping_pong_eq_emod i n hi hn]
    have h0 : 0 ≤ i % (2 * (n - 1)) := Int.emod_nonneg i (by omega)
    have h1 : i % (2 * (n - 1)) < 2 * (n - 1) := Int.emod_lt_of_pos i hc
    split <;> omega
  · rw [ping_pong_eq_emod i n hi hn, ping_pong_eq_emod (i + 2 * (n - 1)) n (by omega) hn]
    have hper : (i + 2 * (n - 1)) % (2 * (n - 1)) = i % (2 * (n - 1)) := by
      have h := Int.add_mul_emod_self_left i (2 * (n - 1)) 1
      rw [mul_one] at h
      exact h
    rw [hper]
  · intro hile
    rw [ping_pong_eq_emod i n hi hn, ping_pong_eq_emod (2 * (n - 1) - i) n (by omega) hn]
    by_cases h0 : i = 0
    · subst h0
      simp only [Int.sub_zero, Int.emod_self, Int.zero_emod]
    · by_cases hceq : i = 2 * (n - 1)
      · subst hceq
        simp only [Int.sub_self, Int.zero_emod, Int.emod_self]
      · rw [Int.emod_eq_of_lt hi (by omega), Int.emod_eq_of_lt (by omega) (by omega)]
        split_ifs <;> omega

/-- C6 witness: the amended theorem applied at i = 3, n = 4. -/
theorem ping_pong_triangle_wave_witness :
    0 ≤ ping_pong 3 4 ∧ ping_pong 3 4 < 4 :=
  (ping_pong_triangle_wave 3 4 (by decide) (by decide)).1

/-- C7: for a frame counter in the nonnegative `i32` range (the counter starts at 0
and only ever increments), `catch` and `throw` select the clip at index
frame mod 3 of their three-entry tables, the selection is determined by the
frame counter alone, and the box comes back unchanged (both methods take a
shared reference in the source). -/
theorem music_box_clip_selection (m : MusicBox) (h0 : 0 ≤ m.frame)
    (h1 : m.frame < 2147483648) :
    (MusicBox.catch m).1 = CATCHES.getD (m.frame.toNat % 3) Clip.woosh1 ∧
    (MusicBox.throw m).1 = WHOOSHES.getD (m.frame.toNat % 3) Clip.woosh1 ∧
    CATCHES.length = 3 ∧ WHOOSHES.length = 3 ∧
    (MusicBox.catch m).2 = m ∧ (MusicBox.throw m).2 = m ∧
    (∀ m2 : MusicBox, m2.frame = m.frame →
      (MusicBox.catch m2).1 = (MusicBox.catch m).1 ∧
      (MusicBox.throw m2).1 = (MusicBox.throw m).1) := by
  obtain ⟨f⟩ := m
  have h0f : 0 ≤ f := h0
  have h1f : f < 2147483648 := h1
  have he : Int.emod f 4294967296 = f := Int.emod_eq_of_lt h0f (by omega)
  refine ⟨?_, ?_, rfl, rfl, rfl, rfl, ?_⟩
  · show CATCHES.getD ((Int.emod f 4294967296).toNat % 3) Clip.woosh1 =
      CATCHES.getD (f.toNat % 3) Clip.woosh1
    rw [he]
  · show WHOOSHES.getD ((Int.emod f 4294967296).toNat % 3) Clip.woosh1 =
      WHOOSHES.getD (f.toNat % 3) Clip.woosh1
    rw [he]
  · rintro ⟨f2⟩ hm
    have hf : f2 = f := hm
    subst hf
    exact ⟨rfl, rfl⟩

/-- C7 witness: the theorem applied at the concrete frame counter 5 selects the
third clip of each table. -/
theorem music_box_clip_selection_witness :
    (MusicBox.catch ⟨5⟩).1 = Clip.catch3 ∧ (MusicBox.throw ⟨5⟩).1 = Clip.woosh3 := by
  have h := music_box_clip_selection ⟨5⟩ (by decide) (by decide)
  exact ⟨h.1.trans (by decide), h.2.1.trans (by decide)⟩

/-- C8: collision never depends on the background layer.  Replacing the background
tile array of any level by any other list leaves `Level::collides` unchanged at
every coordinate. -/
theorem collides_ignores_background (l : Level) (bg : List Nat) (x y : Int) :
    Level.collides { l with background := bg } x y = Level.collides l x y := rfl

/-- C2: out of bounds is always solid, and in bounds — under the preconditions that
the foreground layer has width*height entries and every foreground tile id
indexes the collision table — `collides` is true exactly when the collision
table entry of the foreground tile equals the solid sentinel. -/
theorem collides_bounds_and_table (l : Level) (x y : Int)
    (hlen : l.foreground.length = l.width * l.height)
    (htiles : ∀ t ∈ l.foreground, t < l.collision.length) :
    ((x < 0 ∨ (l.width : Int) ≤ x ∨ y < 0 ∨ (l.height : Int) ≤ y) →
      l.collides x y = true) ∧
    (∀ (hidx : ((l.width : Int) * y + x).toNat < l.foreground.length)
      (htile : l.foreground[((l.width : Int) * y + x).toNat] < l.collision.length),
      0 ≤ x → x < (l.width : Int) → 0 ≤ y → y < (l.height : Int) →
      (l.collides x y = true ↔
        l.collision[l.foreground[((l.width : Int) * y + x).toNat]] = l.collisionTile)) := by
  constructor
  · intro h
    simp only [Level.collides, if_pos h]
  · intro hidx htile hx0 hx1 hy0 hy1
    simp only [Level.collides,
      if_neg (by omega : ¬ (x < 0 ∨ (l.width : Int) ≤ x ∨ y < 0 ∨ (l.height : Int) ≤ y))]
    simp only [List.getD_eq_getElem?_getD]
    rw [List.getElem?_eq_getElem hidx, Option.getD_some, List.getElem?_eq_getElem htile,
      Option.getD_some]
    exact decide_eq_true_iff

/-- C2 witness: the theorem applied to a concrete one-tile level, out of bounds on
the left and in bounds at the origin. -/
theorem collides_bounds_and_table_witness :
    Level.collides
        { background := [0], foreground := [3], width := 1, height := 1,
          collision := [0, 0, 0, 7], collisionTile := 7 } (-1) 0 = true ∧
    Level.collides
        { background := [0], foreground := [3], width := 1, height := 1,
          collision := [0, 0, 0, 7], collisionTile := 7 } 0 0 = true := by
  have h := collides_bounds_and_table
    { background := [0], foreground := [3], width := 1, height := 1,
      collision := [0, 0, 0, 7], collisionTile := 7 } (-1) 0 (by decide) (by decide)
  have h2 := collides_bounds_and_table
    { background := [0], foreground := [3], width := 1, height := 1,
      collision := [0, 0, 0, 7], collisionTile := 7 } 0 0 (by decide) (by decide)
  refine ⟨h.1 (by decide), ?_⟩
  exact (h2.2 (by decide) (by decide) (by decide) (by decide) (by decide) (by decide)).mpr
    (by decide)

/-- Membership in the loop range [a, b). -/
theorem mem_intRange {a b x : Int} : x ∈ intRange a b ↔ a ≤ x ∧ x < b := by
  constructor
  · intro hx
    simp only [intRange, List.mem_map, List.mem_range] at hx
    obtain ⟨k, hk, hke⟩ := hx
    omega
  · intro h
    simp only [intRange, List.mem_map, List.mem_range]
    refine ⟨(x - a).toNat, by omega, by omega⟩

/-- C4 counterexample: at pixel position (7, 7) with a 16 by 16 mask, the left box
edge is -1; floor-dividing by 8 as the claim states yields tile column -1, which
is out of bounds and therefore solid, so the claimed characterisation says the
query collides — but the code divides with truncation toward zero, visits only
tile column 0, and returns false. -/
theorem collision_at_point_floor_counterexample :
    Entity.collision_at_point boxEntity boxLevel boxEntity.position = false ∧
    collision_at_point_spec_floor boxEntity boxLevel boxEntity.position = true := by
  constructor
  · decide
  · decide

/-- C4 amended: `collision_at_point` returns true iff some tile of the half-open
rectangle [left, right) x [top, bottom) is solid per `Level::collides`, where the
four edges are the floored position plus/minus half the mask, divided by the
tile size 8 with truncation toward zero (Rust `/`), not floor division. -/
theorem collision_at_point_iff (e : Entity) (l : Level) (pos : Vec2) :
    e.collision_at_point l pos = true ↔
    ∃ tx ty : Int,
      Int.tdiv (Fixed.floor pos.x - Int.tdiv e.collision_mask.1 2) 8 ≤ tx ∧
      tx < Int.tdiv (Fixed.floor pos.x + Int.tdiv e.collision_mask.1 2) 8 ∧
      Int.tdiv (Fixed.floor pos.y - Int.tdiv e.collision_mask.2 2) 8 ≤ ty ∧
      ty < Int.tdiv (Fixed.floor pos.y + Int.tdiv e.collision_mask.2 2) 8 ∧
      l.collides tx ty = true := by
  simp only [Entity.collision_at_point, collision_at_mask, List.any_eq_true, mem_intRange]
  constructor
  · rintro ⟨tx, ⟨h1, h2⟩, ty, ⟨h3, h4⟩, h5⟩
    exact ⟨tx, ty, h1, h2, h3, h4, h5⟩
  · rintro ⟨tx, ty, h1, h2, h3, h4, h5⟩
    exact ⟨tx, ⟨h1, h2⟩, ty, ⟨h3, h4⟩, h5⟩

/-- Moving the position of an entity leaves its collision query unchanged: the query
reads only the collision mask and its explicit position argument. -/
theorem collision_at_point_position_irrelevant (e : Entity) (pos : Vec2) (l : Level)
    (q : Vec2) :
    Entity.collision_at_point { e with position := pos } l q =
      Entity.collision_at_point e l q := rfl

/-- C1: `update_position` integrates axis-separately.  The final position is the
Y-resolution of the X-resolved position; the returned vector is the net
displacement actually applied; velocity and mask are untouched; each axis
commits exactly when its candidate is collision-free; any committed movement
ends on a collision-free checked position; and when both axis candidates
collide, the displacement is zero and the position unchanged. -/
theorem update_position_axis_separated (e : Entity) (l : Level) :
    ((e.update_position l).1.position =
      if e.collision_at_point l (y_candidate e l) then x_resolved e l else y_candidate e l) ∧
    (e.update_position l).2 = (e.update_position l).1.position.sub e.position ∧
    (e.update_position l).1.velocity = e.velocity ∧
    (e.update_position l).1.collision_mask = e.collision_mask ∧
    (e.collision_at_point l (x_candidate e) = false →
      (e.update_position l).1.position.x = e.position.x + e.velocity.x) ∧
    (e.collision_at_point l (y_candidate e l) = false →
      (e.update_position l).1.position.y = e.position.y + e.velocity.y) ∧
    ((e.update_position l).1.position.x ≠ e.position.x →
      e.collision_at_point l (x_candidate e) = false) ∧
    ((e.update_position l).1.position ≠ e.position →
      e.collision_at_point l (e.update_position l).1.position = false) ∧
    (e.collision_at_point l (x_candidate e) = true →
      e.collision_at_point l (e.position.add ⟨0, e.velocity.y⟩) = true →
      (e.update_position l).2 = ⟨0, 0⟩ ∧ (e.update_position l).1.position = e.position) := by
  by_cases h1 : e.collision_at_point l (x_candidate e) = true
  · by_cases h2 : e.collision_at_point l (e.position.add ⟨0, e.velocity.y⟩) = true
    · simp [Entity.update_position, Entity.collision_at_point, x_candidate, x_resolved,
        y_candidate, Vec2.add, Vec2.sub, Vec2.mk.injEq] at h1 h2 ⊢
      simp [h1, h2]
    · rw [Bool.not_eq_true] at h2
      simp [Entity.update_position, Entity.collision_at_point, x_candidate, x_resolved,
        y_candidate, Vec2.add, Vec2.sub, Vec2.mk.injEq] at h1 h2 ⊢
      simp [h1, h2]
  · rw [Bool.not_eq_true] at h1
    by_cases h2 : e.collision_at_point l ((x_candidate e).add ⟨0, e.velocity.y⟩) = true
    · simp [Entity.update_position, Entity.collision_at_point, x_candidate, x_resolved,
        y_candidate, Vec2.add, Vec2.sub, Vec2.mk.injEq] at h1 h2 ⊢
      simp [h1, h2]
    · rw [Bool.not_eq_true] at h2
      simp [Entity.update_position, Entity.collision_at_point, x_candidate, x_resolved,
        y_candidate, Vec2.add, Vec2.sub, Vec2.mk.injEq] at h1 h2 ⊢
      simp [h1, h2]

/-- C1 witness: for the concrete blocked entity both axis candidates collide, and the
theorem yields zero displacement and an unchanged position. -/

theorem update_position_axis_separated_witness :
    (Entity.update_position blockedEntity boxLevel).2 = ⟨0, 0⟩ ∧
    (Entity.update_position blockedEntity boxLevel).1.position = blockedEntity.position :=
  (update_position_axis_separated blockedEntity boxLevel).2.2.2.2.2.2.2.2
    (by decide) (by decide)

/-- The wizard physics block never changes the hat state. -/
theorem physics_step_hat_state (p : Player) (input : Input) (timer : Int) (l : Level) :
    (physics_step p input timer l).hat_state = p.hat_state := by
  unfold physics_step
  split_ifs <;> rfl

/-- The input handling block never changes the slow counter. -/
theorem input_step_slow_counter (p : Player) (input : Input) :
    (input_step p input).hat_slow_counter = p.hat_slow_counter := by
  simp only [input_step]
  split_ifs <;> rfl

/-- The wizard physics block never changes the slow counter. -/
theorem physics_step_slow_counter (p : Player) (input : Input) (timer : Int) (l : Level) :
    (physics_step p input timer l).hat_slow_counter = p.hat_slow_counter := by
  unfold physics_step
  split_ifs <;> rfl

/-- C5: on the press edge of the action button while the hat is on the head and the
directional input is nonzero, the throw handling step sets the hat velocity to
the normalised direction times 5 with the 4/3 bias on a positive Y component,
and sets the hat state to Thrown; in particular direction (1, 0) gives exactly
velocity (5, 0).  (Within the same frame the Thrown branch then continues to
integrate the hat from this velocity.) -/
theorem throw_sets_velocity_and_state (p : Player) (input : Input)
    (hpress : input.a_just_pressed = true) (hstate : p.hat_state = .OnHead)
    (hdir : direction_input input ≠ (⟨0, 0⟩ : Vec2)) :
    (input_step p input).hat.velocity = throw_velocity (direction_input input) ∧
    (input_step p input).hat_state = .Thrown ∧
    (input.x_tri = .Positive → input.y_tri = .Zero →
      (input_step p input).hat.velocity = ⟨Fixed.ofInt 5, 0⟩) := by
  have h1 : input_step p input =
      { p with hat := { p.hat with velocity := throw_velocity (direction_input input) }
               hat_state := .Thrown } := by
    unfold input_step
    rw [hpress, hstate]
    simp [hdir]
  rw [h1]
  refine ⟨rfl, rfl, ?_⟩
  intro hx hy
  have hde : direction_input input = ⟨Fixed.ofInt 1, Fixed.ofInt 0⟩ := by
    unfold direction_input
    rw [hx, hy]
    rfl
  show throw_velocity (direction_input input) = ⟨Fixed.ofInt 5, 0⟩
  rw [hde]
  decide

/-- C5 witness: a fresh player, action button pressed with direction (1, 0): the throw
step gives hat velocity (5, 0) and state Thrown. -/
theorem throw_sets_velocity_and_state_witness :
    (input_step Player.new ⟨true, .Positive, .Zero⟩).hat.velocity = ⟨Fixed.ofInt 5, 0⟩ ∧
    (input_step Player.new ⟨true, .Positive, .Zero⟩).hat_state = .Thrown := by
  have h := throw_sets_velocity_and_state Player.new ⟨true, .Positive, .Zero⟩ rfl rfl (by decide)
  exact ⟨h.2.2 rfl rfl, h.2.1⟩

/-- How the hat dispatch can change the slow counter: reset in OnHead, a guarded
increment in Thrown, untouched otherwise. -/
theorem hat_step_slow_counter_cases (q : Player) (l : Level) :
    (hat_step q l).hat_slow_counter = 0 ∨
    (hat_step q l).hat_slow_counter = q.hat_slow_counter ∨
    (q.hat_slow_counter < 10 ∧
      (hat_step q l).hat_slow_counter = q.hat_slow_counter + 1) := by
  cases hs : q.hat_state
  case OnHead =>
    left
    simp [hat_step, hs]
  case Thrown =>
    by_cases hc : q.hat_slow_counter < 10 ∧ q.hat.velocity.magnitude < Fixed.ofInt 2
    · right; right
      exact ⟨hc.1, by simp [hat_step, hs, hc]⟩
    · right; left
      simp [hat_step, hs, hc]
  case WizardTowards =>
    right; left
    by_cases hlt : towards_distance q < Fixed.ofInt 16 <;> simp [hat_step, hs, hlt]

/-- C9: the slow counter starts at 0, stays within [0, 10] across every frame, and can
only be reset to 0, kept, or incremented by one while strictly below 10. -/
theorem hat_slow_counter_invariant (p : Player) (input : Input) (timer : Int) (l : Level)
    (h0 : 0 ≤ p.hat_slow_counter) (h10 : p.hat_slow_counter ≤ 10) :
    (0 ≤ (p.update_frame input timer l).hat_slow_counter ∧
      (p.update_frame input timer l).hat_slow_counter ≤ 10) ∧
    ((p.update_frame input timer l).hat_slow_counter = 0 ∨
      (p.update_frame input timer l).hat_slow_counter = p.hat_slow_counter ∨
      (p.hat_slow_counter < 10 ∧
        (p.update_frame input timer l).hat_slow_counter = p.hat_slow_counter + 1)) ∧
    Player.new.hat_slow_counter = 0 := by
  have hqc : (mid_state p input timer l).hat_slow_counter = p.hat_slow_counter := by
    unfold mid_state
    rw [physics_step_slow_counter, input_step_slow_counter]
  have hcases := hat_step_slow_counter_cases (mid_state p input timer l) l
  rw [hqc] at hcases
  have hup : p.update_frame input timer l = hat_step (mid_state p input timer l) l := rfl
  rw [hup]
  refine ⟨?_, hcases, rfl⟩
  rcases hcases with h | h | h
  · omega
  · omega
  · omega

/-- C9 witness: the invariant applied to a fresh player for one idle frame. -/
theorem hat_slow_counter_invariant_witness :
    0 ≤ (Player.new.update_frame ⟨false, .Zero, .Zero⟩ 0 boxLevel).hat_slow_counter ∧
    (Player.new.update_frame ⟨false, .Zero, .Zero⟩ 0 boxLevel).hat_slow_counter ≤ 10 :=
  (hat_slow_counter_invariant Player.new ⟨false, .Zero, .Zero⟩ 0 boxLevel
    (by decide) (by decide)).1

/-- C10: a recall press while the hat is Thrown zeroes both velocities and moves the
state to WizardTowards inside the input step, and when the wizard-to-hat
distance (with the resting offset) is already below 16, the same call to
`update_frame` ends in OnHead with the wizard velocity equal to the achieved
displacement divided by 8 — WizardTowards is never observable between frames. -/
theorem recall_then_instant_catch (p : Player) (input : Input) (timer : Int) (l : Level)
    (hpress : input.a_just_pressed = true) (hstate : p.hat_state = .Thrown)
    (hdist : towards_distance p < Fixed.ofInt 16) :
    (input_step p input).hat_state = .WizardTowards ∧
    (input_step p input).hat.velocity = (⟨0, 0⟩ : Vec2) ∧
    (input_step p input).wizard.velocity = (⟨0, 0⟩ : Vec2) ∧
    (p.update_frame input timer l).hat_state = .OnHead ∧
    (p.update_frame input timer l).wizard.velocity =
      Vec2.divInt
        (Entity.update_position
          { (input_step p input).wizard with velocity := towards_redirect (input_step p input) }
          l).2 8 := by
  have h1 : input_step p input =
      { p with hat := { p.hat with velocity := ⟨0, 0⟩ }
               wizard := { p.wizard with velocity := ⟨0, 0⟩ }
               hat_state := .WizardTowards } := by
    unfold input_step
    rw [hpress, hstate]
    simp
  have hmid : physics_step (input_step p input) input timer l = input_step p input := by
    rw [h1]
    unfold physics_step
    simp
  have hstep : p.update_frame input timer l = hat_step (input_step p input) l := by
    unfold Player.update_frame
    rw [hmid]
  have hd3 : towards_distance
      { p with hat := { p.hat with velocity := ⟨0, 0⟩ }
               wizard := { p.wizard with velocity := ⟨0, 0⟩ }
               hat_state := .WizardTowards } < Fixed.ofInt 16 := hdist
  refine ⟨by rw [h1], by rw [h1], by rw [h1], ?_, ?_⟩
  · rw [hstep, h1]
    simp only [hat_step]
    rw [if_pos hd3]
  · rw [hstep, h1]
    simp only [hat_step]
    rw [if_pos hd3]
    rfl

/-- C10 witness: the theorem applied to the concrete recall state: one frame goes all
the way from Thrown to OnHead. -/
theorem recall_then_instant_catch_witness :
    (recallPlayer.update_frame ⟨true, .Zero, .Zero⟩ 0 boxLevel).hat_state = .OnHead :=
  (recall_then_instant_catch recallPlayer ⟨true, .Zero, .Zero⟩ 0 boxLevel rfl rfl
    (by decide)).2.2.2.1

/-- How the input handling block can change the hat state. -/
theorem input_step_hat_state_cases (p : Player) (input : Input) :
    (input_step p input).hat_state = p.hat_state ∨
    (input.a_just_pressed = true ∧ p.hat_state = .OnHead ∧
      direction_input input ≠ (⟨0, 0⟩ : Vec2) ∧ (input_step p input).hat_state = .Thrown) ∨
    (input.a_just_pressed = true ∧ p.hat_state = .Thrown ∧
      (input_step p input).hat_state = .WizardTowards) := by
  by_cases h1 : input.a_just_pressed = true
  · by_cases h2 : p.hat_state = .OnHead
    · by_cases h3 : direction_input input = (⟨0, 0⟩ : Vec2)
      · left
        simp [input_step, h1, h2, h3]
      · right; left
        exact ⟨h1, h2, h3, by simp [input_step, h1, h2, h3]⟩
    · by_cases h4 : p.hat_state = .Thrown
      · right; right
        exact ⟨h1, h4, by simp [input_step, h1, h2, h4]⟩
      · left
        simp [input_step, h1, h2, h4]
  · left
    simp [input_step, h1]

/-- How the hat dispatch can change the hat state: a catch out of Thrown requires the
left-range flag and a distance below 16, a catch out of WizardTowards requires a
distance below 16; nothing else moves. -/
theorem hat_step_hat_state_cases (q : Player) (l : Level) :
    (hat_step q l).hat_state = q.hat_state ∨
    (q.hat_state = .Thrown ∧ q.hat_left_range = true ∧
      thrown_distance q < Fixed.ofInt 16 ∧ (hat_step q l).hat_state = .OnHead) ∨
    (q.hat_state = .WizardTowards ∧ towards_distance q < Fixed.ofInt 16 ∧
      (hat_step q l).hat_state = .OnHead) := by
  cases hs : q.hat_state
  case OnHead =>
    left
    simp [hat_step, hs]
  case Thrown =>
    by_cases hlt : thrown_distance q < Fixed.ofInt 16
    · by_cases hgt : thrown_distance q > Fixed.ofInt 16
      · exact absurd hlt (lt_asymm hgt)
      · by_cases hlr : q.hat_left_range = true
        · right; left
          exact ⟨rfl, hlr, hlt, by simp [hat_step, hs, hlt, hgt, hlr]⟩
        · left
          simp [hat_step, hs, hlt, hgt, hlr]
    · left
      simp [hat_step, hs, hlt]
  case WizardTowards =>
    by_cases hlt : towards_distance q < Fixed.ofInt 16
    · right; right
      exact ⟨rfl, hlt, by simp [hat_step, hs, hlt]⟩
    · left
      simp [hat_step, hs, hlt]

/-- C3: across one call to `update_frame`, the hat state evolves only along the four
guarded transitions: OnHead to Thrown on a press edge with nonzero direction,
Thrown to WizardTowards on a press edge, Thrown to OnHead when the left-range
flag was set and the distance is below 16, and WizardTowards to OnHead when the
distance is below 16 — every call is a reflexive-transitive chain of these. -/
theorem hat_state_transitions (p : Player) (input : Input) (timer : Int) (l : Level) :
    Relation.ReflTransGen (HatEdge p input timer l) p.hat_state
      (p.update_frame input timer l).hat_state := by
  have hmidstate : (mid_state p input timer l).hat_state = (input_step p input).hat_state :=
    physics_step_hat_state (input_step p input) input timer l
  have hA : Relation.ReflTransGen (HatEdge p input timer l) p.hat_state
      (mid_state p input timer l).hat_state := by
    rw [hmidstate]
    rcases input_step_hat_state_cases p input with h | h | h
    · rw [h]
    · rw [h.2.2.2, h.2.1]
      exact Relation.ReflTransGen.single (HatEdge.throw_edge h.1 h.2.2.1)
    · rw [h.2.2, h.2.1]
      exact Relation.ReflTransGen.single (HatEdge.recall_edge h.1)
  have hB : Relation.ReflTransGen (HatEdge p input timer l)
      (mid_state p input timer l).hat_state
      (hat_step (mid_state p input timer l) l).hat_state := by
    rcases hat_step_hat_state_cases (mid_state p input timer l) l with h | h | h
    · rw [h]
    · rw [h.2.2.2, h.1]
      exact Relation.ReflTransGen.single (HatEdge.catch_from_thrown h.2.1 h.2.2.1)
    · rw [h.2.2, h.1]
      exact Relation.ReflTransGen.single (HatEdge.catch_from_towards h.2.1)
  exact hA.trans hB

end JoinedTogether

